import Mathlib

/-!
Verification of the orchestration layer of a noise-injection LLM inference
repository (single source file lib/language_models.py).

The underlying model, tokenizer and softmax kernels are external collaborators
(the spec treats them as opaque capabilities), so they appear here as function
parameters: a model forward pass maps a 2-D grid of token ids to a 3-D grid of
logits (or fails with a runtime error, rendered as Except), a generate call
maps input ids to output ids, a tokenizer maps prompt strings to id rows, and
the softmax kernel maps one vocabulary row to a normalized row.  The noise
window and scale are threaded opaquely through those collaborators, so they are
folded into the corresponding function parameter.  Tensors are embedded as
nested lists of rationals, token ids as naturals, and Python exceptions as the
error branch of Except.
-/

/-- Character-level equality test of a pattern against the front of a list,
used to embed Python substring containment. -/
def charPrefixEq : List Char → List Char → Bool
  | [], _ => true
  | _ :: _, [] => false
  | a :: as, b :: bs => a == b && charPrefixEq as bs

/-- Search a pattern at every suffix position. -/
def charSearch (pat : List Char) : List Char → Bool
  | [] => charPrefixEq pat []
  | c :: cs => charPrefixEq pat (c :: cs) || charSearch pat cs

/-- Python `pat in s` on strings, over the character sequences. -/
def strContains (s pat : String) : Bool :=
  charSearch pat.data s.data

/-- Python truthiness of an optional special-token string: None and the empty
string are falsy, any other string is truthy. -/
def truthyOptStr : Option String → Bool
  | none => false
  | some s => !(s == "")

/-- The torch floating dtypes this layer selects between. -/
inductive TorchDtype where
  | float16 : TorchDtype
  | float32 : TorchDtype
  | bfloat16 : TorchDtype
deriving DecidableEq

/-- Python character count len(s). -/
def strLenChars (s : String) : Nat :=
  s.data.length

/-- Python slice s[n:] over characters. -/
def strDropChars (s : String) (n : Nat) : String :=
  String.mk (s.data.drop n)

/-- Python row slice t[a:b] (for a ≤ b) along the batch axis of a tensor. -/
def sliceRows {α : Type} (t : List α) (a b : Nat) : List α :=
  (t.drop a).take (b - a)

/-- torch.cat of num_copies deep copies of the rows of input_id along axis 0,
also the value of Tensor.repeat(num_copies, 1) on the same rows. -/
def replicateRows (input_id : List (List Nat)) (num_copies : Nat) : List (List Nat) :=
  List.flatten (List.replicate num_copies input_id)

/-- The consecutive sub-batches input_ids[i*fbs:(i+1)*fbs] for i below the
chunk count q, exactly as the loop header `for i in range(q)` slices them. -/
def chunksOf (input_ids : List (List Nat)) (fbs q : Nat) : List (List (List Nat)) :=
  (List.range q).map (fun i => sliceRows input_ids (i * fbs) ((i + 1) * fbs))

/-- The chunk loop of LLMForward.__call__ and LLMForwardMultiprocessing.__call__:
each chunk is passed to the model inside a try block; a RuntimeError makes the
whole call return the empty list at once (none here), discarding every chunk
result already accumulated; otherwise the projected logits are appended. -/
def runChunksTry {β : Type} (modelF : List (List Nat) → Except String (List (List (List ℚ))))
    (proj : List (List (List ℚ)) → List β) :
    List (List (List Nat)) → Option (List (List β))
  | [] => some []
  | c :: cs =>
    match modelF c with
    | Except.error _ => none
    | Except.ok lg =>
      match runChunksTry modelF proj cs with
      | none => none
      | some rest => some (proj lg :: rest)

/-- The chunk loop of LLMForwardLight.__call__: no try block, so the first
RuntimeError propagates out of the loop uncaught. -/
def runChunksNoTry {β : Type} (modelF : List (List Nat) → Except String (List (List (List ℚ))))
    (proj : List (List (List ℚ)) → List β) :
    List (List (List Nat)) → Except String (List (List β))
  | [] => Except.ok []
  | c :: cs =>
    match modelF c with
    | Except.error e => Except.error e
    | Except.ok lg =>
      match runChunksNoTry modelF proj cs with
      | Except.error e => Except.error e
      | Except.ok rest => Except.ok (proj lg :: rest)

/-- The RuntimeError torch.cat raises on an empty tensor list; it occurs
outside every try block of the drivers, so it is never caught. -/
def catRaisesMsg : String :=
  "RuntimeError: torch.cat expected a non-empty list of Tensors"

/-- LLMForward.__call__: replicate the input rows num_copies times, run
ceil(num_copies // forward_batch_size) = num_copies / forward_batch_size full
chunks through the model under a per-chunk try that turns any RuntimeError
into an immediate empty-list return, and finally torch.cat the accumulated
chunk logits (raising when no chunk was accumulated). -/
def LLMForward.call (modelF : List (List Nat) → Except String (List (List (List ℚ))))
    (input_id : List (List Nat)) (num_copies forward_batch_size : Nat) :
    Except String (List (List (List ℚ))) :=
  match runChunksTry modelF (fun lg => lg)
      (chunksOf (replicateRows input_id num_copies) forward_batch_size
        (num_copies / forward_batch_size)) with
  | none => Except.ok []
  | some [] => Except.error catRaisesMsg
  | some ls => Except.ok ls.flatten

/-- LLMForwardMultiprocessing._get_answer_choice_logits (same code in
LLMForwardLight): one output row per sequence, each row the last-position
logits selected at the caller-given answer token ids in the caller-given
order.  The float16 cast of the source is a numeric-precision detail of the
external tensor library and is not modelled over ℚ. -/
def get_answer_choice_logits (logits : List (List (List ℚ))) (answer_token_ids : List Nat) :
    List (List ℚ) :=
  logits.map (fun seqLogits =>
    answer_token_ids.map (fun tokenIdx =>
      (seqLogits.getD (seqLogits.length - 1) []).getD tokenIdx 0))

/-- LLMForwardMultiprocessing.__call__: like LLMForward.call but each chunk is
reduced to answer-choice rows before accumulation, still inside the try. -/
def LLMForwardMultiprocessing.call
    (modelF : List (List Nat) → Except String (List (List (List ℚ))))
    (input_id : List (List Nat)) (answer_token_ids : List Nat)
    (num_copies forward_batch_size : Nat) : Except String (List (List ℚ)) :=
  match runChunksTry modelF (fun lg => get_answer_choice_logits lg answer_token_ids)
      (chunksOf (replicateRows input_id num_copies) forward_batch_size
        (num_copies / forward_batch_size)) with
  | none => Except.ok []
  | some [] => Except.error catRaisesMsg
  | some ls => Except.ok ls.flatten

/-- LLMForwardLight.__call__: same chunking and projection, but the loop has
no try block, so a chunk RuntimeError propagates to the caller. -/
def LLMForwardLight.call
    (modelF : List (List Nat) → Except String (List (List (List ℚ))))
    (input_id : List (List Nat)) (answer_token_ids : List Nat)
    (num_copies forward_batch_size : Nat) : Except String (List (List ℚ)) :=
  match runChunksNoTry modelF (fun lg => get_answer_choice_logits lg answer_token_ids)
      (chunksOf (replicateRows input_id num_copies) forward_batch_size
        (num_copies / forward_batch_size)) with
  | Except.error e => Except.error e
  | Except.ok [] => Except.error catRaisesMsg
  | Except.ok ls => Except.ok ls.flatten

/-- The slice assignment selected_probs[i, 1:] = prob[range(P-1), input_ids[1:]]
after selected_probs was filled with ones: position 0 keeps the 1, and
position j (for j from 1) receives prob[j-1][input_ids[j]]. -/
def selectShifted (prob : List (List ℚ)) (input_ids : List Nat) : List ℚ :=
  1 :: (List.range (prob.length - 1)).map (fun j =>
    (prob.getD j []).getD (input_ids.getD (j + 1) 0) 0)

/-- LLM.get_probs (the same selection code appears in BatchLLM.get_probs and
BatchLLMForward.get_probs): softmax the logits along the vocabulary axis, then
for every batch row i select the shifted probabilities against that row of
input ids. -/
def LLM.get_probs (model : List (List Nat) → List (List (List ℚ)))
    (smax : List ℚ → List ℚ) (batch_input_ids : List (List Nat)) : List (List ℚ) :=
  let probs := (model batch_input_ids).map (fun seqLogits => seqLogits.map smax)
  (List.range batch_input_ids.length).map (fun i =>
    selectShifted (probs.getD i []) (batch_input_ids.getD i []))

/-- LLMForward.get_probs (the same code appears in LLMForwardMultiprocessing
and LLMForwardLight): the slice assignment
selected_probs[:, 1:] = probs[0, range(L-1), input_ids[0, 1:]] broadcasts the
row computed from batch row 0 into every row of the ones-filled output. -/
def LLMForward.get_probs (model : List (List Nat) → List (List (List ℚ)))
    (smax : List ℚ → List ℚ) (input_ids : List (List Nat)) : List (List ℚ) :=
  let probs := (model input_ids).map (fun seqLogits => seqLogits.map smax)
  input_ids.map (fun _ => selectShifted (probs.getD 0 []) (input_ids.getD 0 []))

/-- The batch actually tokenized by LLM.__call__ and BatchLLM.__call__, and
also the content of the caller-owned prompt list after the call returns, since
batch.append mutates it in place: `if original_prompt:` appends only a truthy
(non-None, non-empty) extra prompt. -/
def effectiveBatch (batch : List String) : Option String → List String
  | none => batch
  | some p => if p = "" then batch else batch ++ [p]

/-- The decode-and-trim epilogue shared by LLM.__call__ and BatchLLM.__call__:
batch_outputs[i] loses its first gen_start_idx[i] characters. -/
def trimOutputs (decoded : List String) (starts : List Nat) : List String :=
  (List.range decoded.length).map (fun i =>
    strDropChars (decoded.getD i "") (starts.getD i 0))

/-- LLM.__call__: append a truthy extra prompt, tokenize, generate under a try
that turns a RuntimeError into an empty result list, then decode every output
row and strip the characters of its decoded input prefix.  The first component
is the caller-owned prompt list as the call leaves it. -/
def LLM.call (tok : List String → List (List Nat)) (decode : List Nat → String)
    (gen : List (List Nat) → Except String (List (List Nat)))
    (batch : List String) (original_prompt : Option String) :
    List String × List String :=
  let b := effectiveBatch batch original_prompt
  let ids := tok b
  match gen ids with
  | Except.error _ => (b, [])
  | Except.ok outs =>
    (b, trimOutputs (outs.map decode) (ids.map (fun r => strLenChars (decode r))))

/-- BatchLLM.__call__: structurally identical to LLM.call (the per-row noise
windows are folded into the opaque generate parameter). -/
def BatchLLM.call (tok : List String → List (List Nat)) (decode : List Nat → String)
    (gen : List (List Nat) → Except String (List (List Nat)))
    (batch : List String) (original_prompt : Option String) :
    List String × List String :=
  let b := effectiveBatch batch original_prompt
  let ids := tok b
  match gen ids with
  | Except.error _ => (b, [])
  | Except.ok outs =>
    (b, trimOutputs (outs.map decode) (ids.map (fun r => strLenChars (decode r))))

/-- The llama test `'llama' in tokenizer_path or 'Llama' in tokenizer_path`
shared by every __init__ in the file. -/
def isLlamaPath (tokenizer_path : String) : Bool :=
  strContains tokenizer_path "llama" || strContains tokenizer_path "Llama"

/-- The pad-token configuration of every __init__: for a llama-like tokenizer
path the pad token is assigned the unk token unconditionally, and afterwards a
still-falsy pad token is assigned the eos token. -/
def resolve_pad_token (tokenizer_path : String) (pad unk eos : Option String) :
    Option String :=
  let pad1 := if isLlamaPath tokenizer_path then unk else pad
  if truthyOptStr pad1 then pad1 else eos

/-- Modelled from the words of the spec (section 4.1) purely for comparison
with resolve_pad_token: prefer an explicit pad token; for a LLaMA-derived
family fall back to the unknown token; otherwise fall back to eos. -/
def resolve_pad_token_specChain (tokenizer_path : String) (pad unk eos : Option String) :
    Option String :=
  if truthyOptStr pad then pad
  else if isLlamaPath tokenizer_path then unk else eos

/-- The dtype expression of LLM.__init__ line 21 (identical in
BatchLLM.__init__): float32 for a vicuna path, float16 otherwise. -/
def LLM.torch_dtype (model_path : String) : TorchDtype :=
  if strContains model_path "vicuna" then TorchDtype.float32 else TorchDtype.float16

/-- The dtype expression of BatchLLM.__init__ line 139. -/
def BatchLLM.torch_dtype (model_path : String) : TorchDtype :=
  if strContains model_path "vicuna" then TorchDtype.float32 else TorchDtype.float16

/-- The dtype expression of BatchLLMForward.__init__ line 253: both branches
of the conditional are float32. -/
def BatchLLMForward.torch_dtype (model_path : String) : TorchDtype :=
  if strContains model_path "vicuna" then TorchDtype.float32 else TorchDtype.float32

/-- The dtype expression of LLMForward.__init__ line 350: both branches are
float32. -/
def LLMForward.torch_dtype (model_path : String) : TorchDtype :=
  if strContains model_path "vicuna" then TorchDtype.float32 else TorchDtype.float32

/-- The dtype expression of LLMForwardMultiprocessing.__init__ line 436. -/
def LLMForwardMultiprocessing.torch_dtype (model_path : String) : TorchDtype :=
  if strContains model_path "vicuna" then TorchDtype.float32 else TorchDtype.float32

/-- The dtype expression of LLMForwardLight.__init__ line 537. -/
def LLMForwardLight.torch_dtype (model_path : String) : TorchDtype :=
  if strContains model_path "vicuna" then TorchDtype.float32 else TorchDtype.float32

/-! ### List access lemmas -/

theorem getD_range_map {β : Type} (f : Nat → β) {n i : Nat} (h : i < n) (d : β) :
    ((List.range n).map f).getD i d = f i := by
  simp [List.getD, List.getElem?_map, List.getElem?_range h]

theorem getD_map_lt {α β : Type} (f : α → β) {l : List α} {i : Nat} (h : i < l.length)
    (d : β) (d' : α) : (l.map f).getD i d = f (l.getD i d') := by
  rw [List.getD_eq_getElem _ _ (by simpa using h), List.getD_eq_getElem _ _ h]
  simp

theorem flatten_replicate_singleton {α : Type} (n : Nat) (a : α) :
    List.flatten (List.replicate n [a]) = List.replicate n a := by
  induction n with
  | zero => rfl
  | succ k ih => simp [List.replicate_succ, ih]

theorem length_flatten_replicate {α : Type} (q : Nat) (r : List α) :
    (List.flatten (List.replicate q r)).length = q * r.length := by
  induction q with
  | zero => simp
  | succ k ih => simp [List.replicate_succ, ih, Nat.succ_mul]; ring

/-! ### Chunking lemmas -/

theorem sliceRows_replicate {α : Type} (row : α) {nc fbs i : Nat}
    (h : (i + 1) * fbs ≤ nc) :
    sliceRows (List.replicate nc row) (i * fbs) ((i + 1) * fbs) = List.replicate fbs row := by
  have h1 : fbs ≤ nc - i * fbs := by
    have : i * fbs + fbs ≤ nc := by
      calc i * fbs + fbs = (i + 1) * fbs := by ring
      _ ≤ nc := h
    omega
  have h2 : (i + 1) * fbs - i * fbs = fbs := by
    have : (i + 1) * fbs = i * fbs + fbs := by ring
    omega
  simp [sliceRows, h2, List.drop_replicate, List.take_replicate, Nat.min_eq_left h1]

theorem chunksOf_replicate (row : List Nat) (nc fbs : Nat) :
    chunksOf (List.replicate nc row) fbs (nc / fbs)
      = List.replicate (nc / fbs) (List.replicate fbs row) := by
  unfold chunksOf
  have hcong : ∀ i ∈ List.range (nc / fbs),
      sliceRows (List.replicate nc row) (i * fbs) ((i + 1) * fbs)
        = List.replicate fbs row := by
    intro i hi
    rw [List.mem_range] at hi
    refine sliceRows_replicate row ?_
    calc (i + 1) * fbs ≤ (nc / fbs) * fbs := Nat.mul_le_mul_right _ hi
    _ ≤ nc := Nat.div_mul_le_self nc fbs
  rw [List.map_congr_left hcong]
  simp

/-! ### Chunk loop lemmas -/

theorem runChunksTry_ok {β : Type} {modelF : List (List Nat) → Except String (List (List (List ℚ)))}
    {proj : List (List (List ℚ)) → List β} {c : List (List Nat)}
    {r : List (List (List ℚ))} (hok : modelF c = Except.ok r) (q : Nat) :
    runChunksTry modelF proj (List.replicate q c) = some (List.replicate q (proj r)) := by
  induction q with
  | zero => rfl
  | succ k ih => simp [List.replicate_succ, runChunksTry, hok, ih]

theorem runChunksTry_err {β : Type} {modelF : List (List Nat) → Except String (List (List (List ℚ)))}
    {proj : List (List (List ℚ)) → List β} {c : List (List Nat)}
    {e : String} (herr : modelF c = Except.error e) {q : Nat} (hq : 0 < q) :
    runChunksTry modelF proj (List.replicate q c) = none := by
  cases q with
  | zero => omega
  | succ k => simp [List.replicate_succ, runChunksTry, herr]

theorem runChunksNoTry_ok {β : Type} {modelF : List (List Nat) → Except String (List (List (List ℚ)))}
    {proj : List (List (List ℚ)) → List β} {c : List (List Nat)}
    {r : List (List (List ℚ))} (hok : modelF c = Except.ok r) (q : Nat) :
    runChunksNoTry modelF proj (List.replicate q c) = Except.ok (List.replicate q (proj r)) := by
  induction q with
  | zero => rfl
  | succ k ih => simp [List.replicate_succ, runChunksNoTry, hok, ih]

theorem runChunksNoTry_err {β : Type} {modelF : List (List Nat) → Except String (List (List (List ℚ)))}
    {proj : List (List (List ℚ)) → List β} {c : List (List Nat)}
    {e : String} (herr : modelF c = Except.error e) {q : Nat} (hq : 0 < q) :
    runChunksNoTry modelF proj (List.replicate q c) = Except.error e := by
  cases q with
  | zero => omega
  | succ k => simp [List.replicate_succ, runChunksNoTry, herr]

/-! ### Concrete collaborators used by witnesses -/

/-- A concrete external model for witnesses: one position with a one-entry
vocabulary row per input row, never failing. -/
def modelW : List (List Nat) → Except String (List (List (List ℚ))) :=
  fun x => Except.ok (x.map (fun _ => [[1]]))

/-- A concrete external model that always raises a RuntimeError. -/
def modelBoom : List (List Nat) → Except String (List (List (List ℚ))) :=
  fun _ => Except.error "boom"

/-! ### Replicated Forward Driver claims -/

/-- C2: for every call to the Replicated Forward Driver, the chunk count is
the integer quotient num_copies / forward_batch_size (math.ceil applied to an
integer division is the identity), so whenever the model succeeds and at least
one full chunk fits, the returned tensor has exactly quotient * batch_size
rows, the chunks concatenated in order with replica order preserved; the final
partial chunk is dropped, not padded. -/
theorem forward_driver_chunk_drop
    (modelF : List (List Nat) → Except String (List (List (List ℚ))))
    (row : List Nat) (answer_token_ids : List Nat)
    (num_copies forward_batch_size : Nat) (r : List (List (List ℚ)))
    (hfbs : 0 < forward_batch_size) (hle : forward_batch_size ≤ num_copies)
    (hok : modelF (List.replicate forward_batch_size row) = Except.ok r)
    (hr : r.length = forward_batch_size) :
    LLMForward.call modelF [row] num_copies forward_batch_size
      = Except.ok (List.flatten (List.replicate (num_copies / forward_batch_size) r))
    ∧ (List.flatten (List.replicate (num_copies / forward_batch_size) r)).length
        = (num_copies / forward_batch_size) * forward_batch_size
    ∧ LLMForwardLight.call modelF [row] answer_token_ids num_copies forward_batch_size
      = Except.ok (List.flatten (List.replicate (num_copies / forward_batch_size)
          (get_answer_choice_logits r answer_token_ids)))
    ∧ (List.flatten (List.replicate (num_copies / forward_batch_size)
          (get_answer_choice_logits r answer_token_ids))).length
        = (num_copies / forward_batch_size) * forward_batch_size := by
  have hq : 0 < num_copies / forward_batch_size := Nat.div_pos hle hfbs
  have hrep : replicateRows [row] num_copies = List.replicate num_copies row :=
    flatten_replicate_singleton _ _
  have hch := chunksOf_replicate row num_copies forward_batch_size
  obtain ⟨q0, hq0⟩ : ∃ q0, num_copies / forward_batch_size = q0 + 1 :=
    ⟨num_copies / forward_batch_size - 1, by omega⟩
  refine ⟨?_, ?_, ?_, ?_⟩
  · unfold LLMForward.call
    rw [hrep, hch, runChunksTry_ok hok, hq0]
    simp [List.replicate_succ]
  · rw [length_flatten_replicate, hr]
  · unfold LLMForwardLight.call
    rw [hrep, hch, runChunksNoTry_ok hok, hq0]
    simp [List.replicate_succ]
  · rw [length_flatten_replicate]
    simp [get_answer_choice_logits, hr]

/-- C2 witness: num_copies 10 with sub-batch size 4 yields exactly two full
chunks, eight output rows. -/
theorem forward_driver_chunk_drop_inst :
    LLMForward.call modelW [[1, 2]] 10 4
      = Except.ok (List.flatten (List.replicate 2 (List.replicate 4 [[(1:ℚ)]])))
    ∧ (List.flatten (List.replicate 2 (List.replicate 4 [[(1:ℚ)]]))).length = 8 := by
  have h := forward_driver_chunk_drop modelW [1, 2] [0] 10 4 (List.replicate 4 [[1]])
    (by norm_num) (by norm_num) (by rfl) (by simp)
  exact ⟨by simpa using h.1, by simp⟩

/-- C3 counterexample: LLMForwardLight.__call__ has no try block, so a chunk
RuntimeError propagates past the driver boundary instead of becoming an empty
result. -/
theorem forward_driver_failure_light_cex :
    LLMForwardLight.call modelBoom [[0]] [0] 8 4 = Except.error "boom"
    ∧ Except.error "boom" ≠ (Except.ok [] : Except String (List (List ℚ))) := by
  exact ⟨by rfl, by simp⟩

/-- C3 amended: a chunk RuntimeError makes LLMForward.__call__ and
LLMForwardMultiprocessing.__call__ abort the whole call, discard every chunk
result already computed and return an empty sequence without raising, but
LLMForwardLight.__call__ propagates the error to the caller. -/
theorem forward_driver_failure_policy
    (modelF : List (List Nat) → Except String (List (List (List ℚ))))
    (row : List Nat) (answer_token_ids : List Nat)
    (num_copies forward_batch_size : Nat) (e : String)
    (hfbs : 0 < forward_batch_size) (hle : forward_batch_size ≤ num_copies)
    (herr : modelF (List.replicate forward_batch_size row) = Except.error e) :
    LLMForward.call modelF [row] num_copies forward_batch_size = Except.ok []
    ∧ LLMForwardMultiprocessing.call modelF [row] answer_token_ids
        num_copies forward_batch_size = Except.ok []
    ∧ LLMForwardLight.call modelF [row] answer_token_ids num_copies forward_batch_size
        = Except.error e := by
  have hq : 0 < num_copies / forward_batch_size := Nat.div_pos hle hfbs
  have hrep : replicateRows [row] num_copies = List.replicate num_copies row :=
    flatten_replicate_singleton _ _
  have hch := chunksOf_replicate row num_copies forward_batch_size
  refine ⟨?_, ?_, ?_⟩
  · unfold LLMForward.call
    rw [hrep, hch, runChunksTry_err herr hq]
  · unfold LLMForwardMultiprocessing.call
    rw [hrep, hch, runChunksTry_err herr hq]
  · unfold LLMForwardLight.call
    rw [hrep, hch, runChunksNoTry_err herr hq]

/-- C3 witness at a failing model with eight replicas in chunks of four. -/
theorem forward_driver_failure_policy_inst :
    LLMForward.call modelBoom [[0]] 8 4 = Except.ok []
    ∧ LLMForwardMultiprocessing.call modelBoom [[0]] [0] 8 4 = Except.ok [] := by
  have h := forward_driver_failure_policy modelBoom [0] [0] 8 4 "boom"
    (by norm_num) (by norm_num) (by rfl)
  exact ⟨h.1, h.2.1⟩

/-- C9: with num_copies strictly below forward_batch_size the integer-division
chunk count is zero, no chunk is processed (the result is the same for every
model), and torch.cat raises an uncaught RuntimeError on the empty list of
chunk results instead of returning logits or an empty sequence. -/
theorem forward_driver_empty_cat_raises
    (modelF : List (List Nat) → Except String (List (List (List ℚ))))
    (input_id : List (List Nat)) (answer_token_ids : List Nat)
    (num_copies forward_batch_size : Nat)
    (h : num_copies < forward_batch_size) :
    LLMForward.call modelF input_id num_copies forward_batch_size
      = Except.error catRaisesMsg
    ∧ LLMForwardMultiprocessing.call modelF input_id answer_token_ids
        num_copies forward_batch_size = Except.error catRaisesMsg := by
  have hq : num_copies / forward_batch_size = 0 := Nat.div_eq_of_lt h
  constructor
  · unfold LLMForward.call
    rw [hq]
    rfl
  · unfold LLMForwardMultiprocessing.call
    rw [hq]
    rfl

/-- C9 witness: two replicas with sub-batch size four process zero chunks and
hit the uncaught concatenation error. -/
theorem forward_driver_empty_cat_raises_inst :
    LLMForward.call modelW [[1]] 2 4 = Except.error catRaisesMsg
    ∧ LLMForwardMultiprocessing.call modelW [[1]] [0] 2 4 = Except.error catRaisesMsg := by
  exact forward_driver_empty_cat_raises modelW [[1]] [0] 2 4 (by norm_num)

/-! ### Generation driver lemmas -/

theorem trimOutputs_length (decoded : List String) (starts : List Nat) :
    (trimOutputs decoded starts).length = decoded.length := by
  simp [trimOutputs]

theorem LLM_call_fst (tok : List String → List (List Nat)) (decode : List Nat → String)
    (gen : List (List Nat) → Except String (List (List Nat)))
    (batch : List String) (original_prompt : Option String) :
    (LLM.call tok decode gen batch original_prompt).1 = effectiveBatch batch original_prompt := by
  simp only [LLM.call]
  rcases hg : gen (tok (effectiveBatch batch original_prompt)) with e | outs <;> simp [hg]

theorem BatchLLM_call_fst (tok : List String → List (List Nat)) (decode : List Nat → String)
    (gen : List (List Nat) → Except String (List (List Nat)))
    (batch : List String) (original_prompt : Option String) :
    (BatchLLM.call tok decode gen batch original_prompt).1
      = effectiveBatch batch original_prompt := by
  simp only [BatchLLM.call]
  rcases hg : gen (tok (effectiveBatch batch original_prompt)) with e | outs <;> simp [hg]

/-- Concrete tokenizer for witnesses: one single-token row per prompt. -/
def tokW : List String → List (List Nat) :=
  fun bs => bs.map (fun _ => [0])

/-- Concrete decoder for witnesses: every row decodes to a one-character text. -/
def decodeW : List Nat → String :=
  fun _ => "x"

/-- Concrete generate call for witnesses: echoes its input ids, one output row
per input row, never failing. -/
def genOk : List (List Nat) → Except String (List (List Nat)) :=
  fun x => Except.ok x

/-- Concrete generate call that always raises a RuntimeError. -/
def genBoom : List (List Nat) → Except String (List (List Nat)) :=
  fun _ => Except.error "probability tensor contains inf nan"

/-! ### Generation driver claims -/

/-- C4: when the underlying generate call raises a runtime error, both the
single-prompt driver LLM.__call__ and the batch driver BatchLLM.__call__ catch
it and return an empty sequence, never propagating the exception and never
returning partial generation results. -/
theorem generation_driver_catches_runtime_error
    (tok : List String → List (List Nat)) (decode : List Nat → String)
    (gen genB : List (List Nat) → Except String (List (List Nat)))
    (batch : List String) (original_prompt : Option String) (e eB : String)
    (h : gen (tok (effectiveBatch batch original_prompt)) = Except.error e)
    (hB : genB (tok (effectiveBatch batch original_prompt)) = Except.error eB) :
    (LLM.call tok decode gen batch original_prompt).2 = []
    ∧ (BatchLLM.call tok decode genB batch original_prompt).2 = [] := by
  constructor
  · simp [LLM.call, h]
  · simp [BatchLLM.call, hB]

/-- C4 witness at a generate call that always fails. -/
theorem generation_driver_catches_runtime_error_inst :
    (LLM.call tokW decodeW genBoom ["p"] none).2 = []
    ∧ (BatchLLM.call tokW decodeW genBoom ["p"] none).2 = [] := by
  exact generation_driver_catches_runtime_error tokW decodeW genBoom genBoom
    ["p"] none _ _ rfl rfl

/-- C8 counterexample: supplying the empty string as extra prompt is falsy in
Python, so it is not appended and the returned sequence keeps the original
batch length instead of growing by one. -/
theorem extra_prompt_empty_string_cex :
    (LLM.call tokW decodeW genOk ["a"] (some "")).2.length
      = (LLM.call tokW decodeW genOk ["a"] none).2.length
    ∧ (LLM.call tokW decodeW genOk ["a"] (some "")).2.length = 1 := by
  exact ⟨rfl, rfl⟩

/-- C8 amended: for every non-empty extra prompt, the generation drivers
append it as one final batch row before tokenizing, so on success the returned
sequence is exactly one longer than without it, and the extra entry is the
continuation of the appended row (its decoded output with the characters of
its own decoded input stripped). -/
theorem extra_prompt_appends_row
    (tok : List String → List (List Nat)) (decode : List Nat → String)
    (gen : List (List Nat) → Except String (List (List Nat)))
    (batch : List String) (p : String) (hp : p ≠ "")
    (htok : ∀ bs, (tok bs).length = bs.length)
    (hgen : ∀ x, ∃ o, gen x = Except.ok o ∧ o.length = x.length) :
    (LLM.call tok decode gen batch (some p)).2.length
      = (LLM.call tok decode gen batch none).2.length + 1
    ∧ (BatchLLM.call tok decode gen batch (some p)).2.length
      = (BatchLLM.call tok decode gen batch none).2.length + 1
    ∧ ∀ outs, gen (tok (batch ++ [p])) = Except.ok outs →
        (LLM.call tok decode gen batch (some p)).2.getD batch.length ""
          = strDropChars (decode (outs.getD batch.length []))
              (strLenChars (decode ((tok (batch ++ [p])).getD batch.length []))) := by
  have hb : effectiveBatch batch (some p) = batch ++ [p] := by
    simp [effectiveBatch, hp]
  obtain ⟨o1, ho1, hl1⟩ := hgen (tok (batch ++ [p]))
  obtain ⟨o0, ho0, hl0⟩ := hgen (tok batch)
  have hlen1 : (LLM.call tok decode gen batch (some p)).2.length = batch.length + 1 := by
    simp [LLM.call, hb, ho1, trimOutputs_length, hl1, htok]
  have hlen0 : (LLM.call tok decode gen batch none).2.length = batch.length := by
    simp [LLM.call, effectiveBatch, ho0, trimOutputs_length, hl0, htok]
  have hlenB1 : (BatchLLM.call tok decode gen batch (some p)).2.length = batch.length + 1 := by
    simp [BatchLLM.call, hb, ho1, trimOutputs_length, hl1, htok]
  have hlenB0 : (BatchLLM.call tok decode gen batch none).2.length = batch.length := by
    simp [BatchLLM.call, effectiveBatch, ho0, trimOutputs_length, hl0, htok]
  refine ⟨by rw [hlen1, hlen0], by rw [hlenB1, hlenB0], ?_⟩
  intro outs houts
  have hlo : outs.length = batch.length + 1 := by
    rw [houts] at ho1
    cases ho1
    rw [hl1, htok]
    simp
  have hlt : (tok (batch ++ [p])).length = batch.length + 1 := by
    rw [htok]
    simp
  have hn1 : batch.length < outs.length := by omega
  have hn2 : batch.length < (tok (batch ++ [p])).length := by omega
  have hcall : (LLM.call tok decode gen batch (some p)).2
      = trimOutputs (outs.map decode)
          ((tok (batch ++ [p])).map (fun r => strLenChars (decode r))) := by
    simp [LLM.call, hb, houts]
  rw [hcall]
  unfold trimOutputs
  rw [getD_range_map _ (by simpa using hn1) _]
  rw [getD_map_lt decode hn1 "" []]
  rw [getD_map_lt (fun r => strLenChars (decode r)) hn2 0 []]

/-- C8 witness: one prompt plus a non-empty extra prompt yields two
continuations instead of one. -/
theorem extra_prompt_appends_row_inst :
    (LLM.call tokW decodeW genOk ["a"] (some "b")).2.length
      = (LLM.call tokW decodeW genOk ["a"] none).2.length + 1 := by
  have h := extra_prompt_appends_row tokW decodeW genOk ["a"] "b"
    (by simp) (fun bs => by simp [tokW]) (fun x => ⟨x, rfl, rfl⟩)
  exact h.1

/-- C10: a truthy extra prompt is appended to the caller-owned prompt list in
place, so the list still holds it after the call returns (for both generation
drivers and whatever the generate call does); an empty-string extra prompt is
silently not appended and the returned sequence keeps the original batch
length. -/
theorem extra_prompt_mutation_frame
    (tok : List String → List (List Nat)) (decode : List Nat → String)
    (gen : List (List Nat) → Except String (List (List Nat)))
    (batch : List String) (p : String) (hp : p ≠ "")
    (htok : ∀ bs, (tok bs).length = bs.length)
    (hgen : ∀ x, ∃ o, gen x = Except.ok o ∧ o.length = x.length) :
    (LLM.call tok decode gen batch (some p)).1 = batch ++ [p]
    ∧ (BatchLLM.call tok decode gen batch (some p)).1 = batch ++ [p]
    ∧ (LLM.call tok decode gen batch (some "")).1 = batch
    ∧ (BatchLLM.call tok decode gen batch (some "")).1 = batch
    ∧ (LLM.call tok decode gen batch (some "")).2.length = batch.length := by
  obtain ⟨o0, ho0, hl0⟩ := hgen (tok batch)
  refine ⟨?_, ?_, ?_, ?_, ?_⟩
  · rw [LLM_call_fst]
    simp [effectiveBatch, hp]
  · rw [BatchLLM_call_fst]
    simp [effectiveBatch, hp]
  · rw [LLM_call_fst]
    simp [effectiveBatch]
  · rw [BatchLLM_call_fst]
    simp [effectiveBatch]
  · simp [LLM.call, effectiveBatch, ho0, trimOutputs_length, hl0, htok]

/-- C10 witness: the caller list keeps the appended prompt, and an empty extra
prompt leaves both the list and the result length unchanged. -/
theorem extra_prompt_mutation_frame_inst :
    (LLM.call tokW decodeW genOk ["a"] (some "b")).1 = ["a", "b"]
    ∧ (LLM.call tokW decodeW genOk ["a"] (some "")).2.length = 1 := by
  have h := extra_prompt_mutation_frame tokW decodeW genOk ["a"] "b"
    (by simp) (fun bs => by simp [tokW]) (fun x => ⟨x, rfl, rfl⟩)
  exact ⟨h.1, h.2.2.2.2⟩

/-! ### Probability extractor lemmas -/

theorem selectShifted_length (prob : List (List ℚ)) (input_ids : List Nat)
    (h : 0 < prob.length) : (selectShifted prob input_ids).length = prob.length := by
  simp [selectShifted]
  omega

theorem selectShifted_getD_zero (prob : List (List ℚ)) (input_ids : List Nat) :
    (selectShifted prob input_ids).getD 0 0 = 1 := rfl

theorem selectShifted_getD_pos (prob : List (List ℚ)) (input_ids : List Nat)
    {j : Nat} (h1 : 1 ≤ j) (h2 : j < prob.length) :
    (selectShifted prob input_ids).getD j 0
      = (prob.getD (j - 1) []).getD (input_ids.getD j 0) 0 := by
  obtain ⟨k, rfl⟩ : ∃ k, j = k + 1 := ⟨j - 1, by omega⟩
  simp only [selectShifted, List.getD_cons_succ]
  rw [getD_range_map _ (by omega) _]
  simp

/-- A concrete normalizer standing in for torch.softmax in witnesses: each
entry divided by the row sum. -/
def normFn (l : List ℚ) : List ℚ :=
  l.map (fun x => x / l.sum)

/-- A concrete external model for probability witnesses: token 0 scores
logits [1, 3] and any other token scores [2, 2], so distinct rows of a batch
receive distinct distributions. -/
def model0 : List (List Nat) → List (List (List ℚ)) :=
  fun ids => ids.map (fun row => row.map (fun t => if t = 0 then [1, 3] else [2, 2]))

/-! ### Probability extractor claims -/

/-- C1 counterexample: on a two-row batch whose rows differ,
LLMForward.get_probs broadcasts the selection of row 0 into row 1, so the
value at row 1 position 1 is 1/4 while the softmax-normalized probability the
forward pass assigned at row 1 position 0 to the realized token is 3/4. -/
theorem get_probs_row_broadcast_cex :
    ((LLMForward.get_probs model0 normFn [[0, 0], [0, 1]]).getD 1 []).getD 1 0 = 1 / 4
    ∧ (normFn (((model0 [[0, 0], [0, 1]]).getD 1 []).getD 0 [])).getD
        (([[0, 0], [0, 1]].getD 1 ([] : List Nat)).getD 1 0) 0 = 3 / 4
    ∧ ((1 : ℚ) / 4) ≠ 3 / 4 := by
  refine ⟨?_, ?_, by norm_num⟩
  · norm_num [LLMForward.get_probs, model0, normFn, selectShifted]
  · norm_num [model0, normFn]

/-- C1 amended: LLM.get_probs (and the identical code of BatchLLM and
BatchLLMForward) returns a grid of the shape of the input ids in which every
row i has value 1 at position 0 and, at every position j from 1, the
softmax-normalized probability assigned at position j-1 to token
input_ids[i, j]; LLMForward.get_probs computes the same grid only when the
batch has exactly one row, the row-0 selection being broadcast otherwise. -/
theorem get_probs_shift_alignment
    (model : List (List Nat) → List (List (List ℚ))) (smax : List ℚ → List ℚ)
    (batch : List (List Nat))
    (hlen : (model batch).length = batch.length)
    (hshape : ∀ i, i < batch.length →
      ((model batch).getD i []).length = (batch.getD i []).length)
    (hpos : ∀ i, i < batch.length → 0 < (batch.getD i []).length) :
    (LLM.get_probs model smax batch).length = batch.length
    ∧ (∀ i, i < batch.length →
        ((LLM.get_probs model smax batch).getD i []).length = (batch.getD i []).length
        ∧ ((LLM.get_probs model smax batch).getD i []).getD 0 0 = 1
        ∧ ∀ j, 1 ≤ j → j < (batch.getD i []).length →
            ((LLM.get_probs model smax batch).getD i []).getD j 0
              = (smax (((model batch).getD i []).getD (j - 1) [])).getD
                  ((batch.getD i []).getD j 0) 0)
    ∧ (batch.length = 1 →
        LLMForward.get_probs model smax batch = LLM.get_probs model smax batch) := by
  have hout : ∀ i, i < batch.length → (LLM.get_probs model smax batch).getD i []
      = selectShifted (((model batch).getD i []).map smax) (batch.getD i []) := by
    intro i hi
    simp only [LLM.get_probs]
    rw [getD_range_map _ hi _]
    congr 1
    exact getD_map_lt (fun s => s.map smax) (by rw [hlen]; exact hi) [] []
  refine ⟨by simp [LLM.get_probs], fun i hi => ?_, fun h1 => ?_⟩
  · have hp : 0 < (((model batch).getD i []).map smax).length := by
      rw [List.length_map, hshape i hi]
      exact hpos i hi
    refine ⟨?_, ?_, fun j hj1 hj2 => ?_⟩
    · rw [hout i hi, selectShifted_length _ _ hp, List.length_map, hshape i hi]
    · rw [hout i hi, selectShifted_getD_zero]
    · have hjp : j < (((model batch).getD i []).map smax).length := by
        rw [List.length_map, hshape i hi]
        omega
      rw [hout i hi, selectShifted_getD_pos _ _ hj1 hjp]
      congr 1
      refine getD_map_lt smax ?_ [] []
      rw [hshape i hi]
      omega
  · obtain ⟨row, rfl⟩ : ∃ row, batch = [row] := by
      cases batch with
      | nil => simp at h1
      | cons a t =>
        cases t with
        | nil => exact ⟨a, rfl⟩
        | cons b t2 => simp at h1
    rfl

/-- C1 witness: on a one-row batch LLM.get_probs places at position 1 the
normalized probability that position 0 assigned to the realized token 1. -/
theorem get_probs_shift_alignment_inst :
    ((LLM.get_probs model0 normFn [[0, 1]]).getD 0 []).getD 1 0
      = (normFn (((model0 [[0, 1]]).getD 0 []).getD 0 [])).getD
          (([[0, 1]].getD 0 ([] : List Nat)).getD 1 0) 0 := by
  have h := get_probs_shift_alignment model0 normFn [[0, 1]]
    (by simp [model0])
    (by
      intro i hi
      have hz : i = 0 := by simpa using hi
      subst hz
      simp [model0])
    (by
      intro i hi
      have hz : i = 0 := by simpa using hi
      subst hz
      simp)
  have h2 := (h.2.1 0 (by norm_num)).2.2 1 (le_refl 1) (by norm_num)
  simpa using h2

/-! ### Configuration claims -/

/-- C5 counterexample: for a LLaMA-derived tokenizer path with an explicit pad
token present, the code overwrites the pad token with the unk token, while the
claimed chain keeps the explicit pad token. -/
theorem pad_token_llama_override_cex :
    resolve_pad_token "llama-7b" (some "[PAD]") (some "<unk>") (some "</s>") = some "<unk>"
    ∧ resolve_pad_token_specChain "llama-7b" (some "[PAD]") (some "<unk>") (some "</s>")
        = some "[PAD]"
    ∧ (some "<unk>" : Option String) ≠ some "[PAD]" := by
  refine ⟨by decide, by decide, by decide⟩

/-- C5 amended: the chain runs once at initialization, but for a LLaMA-derived
tokenizer path the pad token is unconditionally assigned the unk token
(overriding any explicit pad token), falling back to eos only if the unk token
is falsy; only for non-LLaMA paths is an explicit pad token preferred, with
eos as the fallback. -/
theorem pad_token_resolution_chain (tokenizer_path : String) (pad unk eos : Option String) :
    (isLlamaPath tokenizer_path = true →
      resolve_pad_token tokenizer_path pad unk eos
        = (if truthyOptStr unk then unk else eos))
    ∧ (isLlamaPath tokenizer_path = false →
      resolve_pad_token tokenizer_path pad unk eos
        = (if truthyOptStr pad then pad else eos)) := by
  constructor <;> intro h <;> simp [resolve_pad_token, h]

/-- C5 witness: a non-LLaMA path with no explicit pad token falls back to the
eos token. -/
theorem pad_token_resolution_chain_inst :
    resolve_pad_token "gpt2" none none (some "</s>") = some "</s>" := by
  have h := (pad_token_resolution_chain "gpt2" none none (some "</s>")).2 (by decide)
  simpa using h

/-- C6 counterexample: BatchLLMForward.__init__ selects float32 for a
non-vicuna model path, not the claimed half-precision default. -/
theorem torch_dtype_forward_float32_cex :
    BatchLLMForward.torch_dtype "gpt2-medium" = TorchDtype.float32
    ∧ TorchDtype.float32 ≠ TorchDtype.float16 := by
  exact ⟨by decide, by decide⟩

/-- C6 amended: only LLM and BatchLLM default to half precision with vicuna
forcing float32; the forward drivers (BatchLLMForward, LLMForward,
LLMForwardMultiprocessing, LLMForwardLight) select float32 in both branches of
the vicuna conditional. -/
theorem torch_dtype_policy (model_path : String) :
    (strContains model_path "vicuna" = false →
      LLM.torch_dtype model_path = TorchDtype.float16
      ∧ BatchLLM.torch_dtype model_path = TorchDtype.float16)
    ∧ (strContains model_path "vicuna" = true →
      LLM.torch_dtype model_path = TorchDtype.float32
      ∧ BatchLLM.torch_dtype model_path = TorchDtype.float32)
    ∧ BatchLLMForward.torch_dtype model_path = TorchDtype.float32
    ∧ LLMForward.torch_dtype model_path = TorchDtype.float32
    ∧ LLMForwardMultiprocessing.torch_dtype model_path = TorchDtype.float32
    ∧ LLMForwardLight.torch_dtype model_path = TorchDtype.float32 := by
  refine ⟨fun h => ?_, fun h => ?_, ?_, ?_, ?_, ?_⟩
  · simp [LLM.torch_dtype, BatchLLM.torch_dtype, h]
  · simp [LLM.torch_dtype, BatchLLM.torch_dtype, h]
  · simp [BatchLLMForward.torch_dtype]
  · simp [LLMForward.torch_dtype]
  · simp [LLMForwardMultiprocessing.torch_dtype]
  · simp [LLMForwardLight.torch_dtype]

/-- C6 witness: a non-vicuna path gives float16 in LLM but float32 in
BatchLLMForward. -/
theorem torch_dtype_policy_inst :
    LLM.torch_dtype "gpt2" = TorchDtype.float16
    ∧ BatchLLMForward.torch_dtype "gpt2" = TorchDtype.float32 := by
  exact ⟨((torch_dtype_policy "gpt2").1 (by decide)).1, (torch_dtype_policy "gpt2").2.2.1⟩

/-- C7: the Answer-Choice Projector returns one row per sequence, each row the
last-position logits of that sequence selected at exactly the caller-given
answer token ids, in the caller-given order, neither sorted nor deduplicated. -/
theorem answer_choice_projection_spec (logits : List (List (List ℚ)))
    (answer_token_ids : List Nat) :
    (get_answer_choice_logits logits answer_token_ids).length = logits.length
    ∧ ∀ i, i < logits.length →
        (get_answer_choice_logits logits answer_token_ids).getD i []
          = answer_token_ids.map (fun tokenIdx =>
              ((logits.getD i []).getD ((logits.getD i []).length - 1) []).getD tokenIdx 0) := by
  constructor
  · simp [get_answer_choice_logits]
  · intro i hi
    unfold get_answer_choice_logits
    rw [getD_map_lt _ hi [] []]

/-- C7 witness: candidate ids [5, 9, 2] against a last-position row whose
entry at index k is k select exactly [5, 9, 2] in that order. -/
theorem answer_choice_projection_inst :
    (get_answer_choice_logits [[[0, 1, 2, 3, 4, 5, 6, 7, 8, 9]]] [5, 9, 2]).getD 0 []
      = [(5 : ℚ), 9, 2] := by
  have h := (answer_choice_projection_spec [[[0, 1, 2, 3, 4, 5, 6, 7, 8, 9]]] [5, 9, 2]).2
    0 (by norm_num)
  rw [h]
  decide
